import Mathlib

set_option maxRecDepth 16000

/-
Shallow embedding of the VideoStartIOS start-sequence and timing code.

Sources embedded here:
- src/src/components/StartSequenceOverlay.tsx : the startSequence async
  script (countdown, phase cues, randomized waits, GO phase, completion
  timeout) and randomDelay.
- src/src/components/RaceTimerApp.tsx : handleStartSequence,
  handleStopRecording, handleSequenceComplete, handleSequenceCancelled.
- src/unnamed/part_004 (ControlPanel + CameraView) : canStart/canStop
  button gating, the frame processor (frame timestamp capture and the
  measured-fps computation) and the recording start/stop effects.
- src/src/context/CameraContext.tsx : findBestFormat and the
  StartSequenceConfig defaults.

Times are modelled as integers (milliseconds of performance.now(); the
JS clock is a double, but every instant appearing in the claims is an
integral number of milliseconds and no guard in the embedded code
branches on a time value, so integer milliseconds are a faithful clock
model). The measured frame rate is a rational. The two Math.random
draws of a session are injected deterministically: randomDelay is
embedded separately over the rationals exactly as written in the source,
and the startSequence script receives the two millisecond wait values it
produces.

JavaScript runs the React handlers and timer callbacks one at a time on
a single thread; we model a run of the app as a list of atomic events
folded over a step function. Each event corresponds to one handler or
callback execution, including the state updates and the React effects it
triggers (React runs effects in tree order: the CameraView effect fires
before the StartSequenceOverlay mount effect, since CameraView comes
first in the RaceTimerApp tree). The async startSequence function is
embedded as a script (list of steps) that keeps running step by step
even after the overlay is cancelled or unmounted, exactly as the JS
promise chain does: nothing in the source aborts it.
-/

/-- Audio cue names passed to audioManager.playAudio in
StartSequenceOverlay.tsx (go_to_start, in_position, set, start_beep). -/
inductive Cue
  | goToStartCue
  | inPositionCue
  | setCue
  | startBeep
deriving DecidableEq, Repr

/-- Commands the engine issues to its collaborators, recorded in an
append-only log: camera.startRecording / camera.stopRecording calls made
by CameraView, and audioManager.playAudio calls made by the overlay.
The calibrate constructor exists only so that the spec claim about a
frame-rate calibration step can be stated; the source contains no
calibration operation, so no step of the model ever emits it. -/
inductive Cmd
  | beginRecording
  | stopRecording
  | play (c : Cue)
  | calibrate
deriving DecidableEq, Repr

/-- Recording state of RaceTimerApp (idle | recording | finished). -/
inductive RecordingState
  | idle
  | recording
  | finished
deriving DecidableEq, Repr

/-- Modelled from the spec: the TimingMarkers service
(src/services/TimingMarkers) is imported by RaceTimerApp.tsx and
StatusPanel.tsx but its implementation file is not present under src/.
The spec (section 4.5) fixes its contract: startTime and finishTime are
single-assignment fields (calling a setter twice on an already-set field
is a no-op, never a silent overwrite). -/
structure TimingMarkers where
  startTime : Option ℤ := none
  finishTime : Option ℤ := none
deriving DecidableEq, Repr

/-- Modelled from the spec: single-assignment setter for startTime. -/
def TimingMarkers.setStartTime (tm : TimingMarkers) (t : ℤ) : TimingMarkers :=
  match tm.startTime with
  | none => { tm with startTime := some t }
  | some _ => tm

/-- Modelled from the spec: single-assignment setter for finishTime. -/
def TimingMarkers.setFinishTime (tm : TimingMarkers) (t : ℤ) : TimingMarkers :=
  match tm.finishTime with
  | none => { tm with finishTime := some t }
  | some _ => tm

/-- One atomic step of the async startSequence function in
StartSequenceOverlay.tsx. uiUpdate covers setCountdown / setPhase /
setPhaseText / animateScale (pure display work); waitMs is an awaited
delay(ms); playCue is an awaited audioManager.playAudio call;
captureStartVar is the local read startTime = performance.now() at the
GO phase; scheduleComplete is the setTimeout that invokes
onComplete(startTime) 500 ms later. The issueBegin constructor exists
only so that the spec claim that the start handler issues the
recording-begin command can be stated; the source start handler contains
no such call, so no script built from the source contains it. -/
inductive SeqStep
  | uiUpdate
  | waitMs (ms : ℤ)
  | playCue (c : Cue)
  | captureStartVar
  | scheduleComplete
  | issueBegin
deriving DecidableEq, Repr

/-- Per-session start-sequence configuration, from ConfigContext
(StartSequenceConfig and its defaults in src/src/context/CameraContext.tsx
lines 129-136 and 156-163). Durations are in seconds; the claims only
involve integral configurations. -/
structure StartSequenceConfig where
  goToStartDuration : ℤ
  inPositionMin : ℤ
  inPositionMax : ℤ
  setMin : ℤ
  setMax : ℤ
  audioEnabled : Bool
deriving DecidableEq, Repr

/-- Default configuration defaultStartSequenceConfig from ConfigContext:
goToStart 5 s, inPosition [1,3] s, set [1,3] s, audio enabled. -/
def defaultStartSequenceConfig : StartSequenceConfig :=
  { goToStartDuration := 5
    inPositionMin := 1
    inPositionMax := 3
    setMin := 1
    setMax := 3
    audioEnabled := true }

/-- randomDelay from StartSequenceOverlay.tsx lines 93-95:
(Math.random() * (max - min) + min) * 1000, with the Math.random draw
injected as the parameter r (in [0,1]). Result is in milliseconds. -/
def randomDelay (min max r : ℚ) : ℚ :=
  (r * (max - min) + min) * 1000

/-- Tail of the startSequence script from the GO phase on
(StartSequenceOverlay.tsx lines 75-91): setPhase(start)/setPhaseText(GO),
read the clock into the local startTime, await the start beep when audio
is enabled, animateScale, then schedule the completion callback. -/
def startPhaseActions (cfg : StartSequenceConfig) : List SeqStep :=
  [SeqStep.uiUpdate, SeqStep.captureStartVar]
    ++ (if cfg.audioEnabled then [SeqStep.playCue Cue.startBeep] else [])
    ++ [SeqStep.uiUpdate, SeqStep.scheduleComplete]

/-- The whole startSequence script from StartSequenceOverlay.tsx lines
35-91: the 3-2-1 countdown (one second per tick), the go-to-start phase
with its fixed wait, the in-position and set phases with their
randomized waits (the two randomDelay results of the session are
injected as inPositionDelay and setDelay, in milliseconds), then the GO
phase. -/
def startSequence (cfg : StartSequenceConfig) (inPositionDelay setDelay : ℤ) : List SeqStep :=
  [SeqStep.uiUpdate, SeqStep.waitMs 1000,
   SeqStep.uiUpdate, SeqStep.waitMs 1000,
   SeqStep.uiUpdate, SeqStep.waitMs 1000,
   SeqStep.uiUpdate]
    ++ (if cfg.audioEnabled then [SeqStep.playCue Cue.goToStartCue] else [])
    ++ [SeqStep.waitMs (cfg.goToStartDuration * 1000), SeqStep.uiUpdate]
    ++ (if cfg.audioEnabled then [SeqStep.playCue Cue.inPositionCue] else [])
    ++ [SeqStep.waitMs inPositionDelay, SeqStep.uiUpdate]
    ++ (if cfg.audioEnabled then [SeqStep.playCue Cue.setCue] else [])
    ++ [SeqStep.waitMs setDelay]
    ++ startPhaseActions cfg

/-- Sum of the awaited delay durations in a script, in milliseconds: the
total pre-start elapsed wait of the sequence. -/
def totalWaitMs (steps : List SeqStep) : ℤ :=
  steps.foldl (fun acc st =>
    match st with
    | SeqStep.waitMs ms => acc + ms
    | _ => acc) 0

/-- A running instance of the startSequence async function: the steps
not yet executed, the local startTime variable once captured, and the
scheduled onComplete payload once the setTimeout has been created. -/
structure RunningSeq where
  steps : List SeqStep
  captured : Option ℤ := none
  scheduled : Option ℤ := none
deriving DecidableEq, Repr

/-- The 29-interval span used by the frame processor in CameraView
(src/unnamed/part_004 lines 193-198): recent30 = slice(-30),
timeDiff = recent30[29] - recent30[0]. -/
def frameTimeDiff (ts : List ℤ) : ℤ :=
  let recent30 := ts.drop (ts.length - 30)
  recent30.getD 29 0 - recent30.getD 0 0

/-- measuredFps from the CameraView frame processor (part_004 line 197):
29000 / timeDiff (29 intervals over timeDiff milliseconds). The source
applies no clamping to this value before exposing it via setActualFps. -/
def measuredFps (ts : List ℤ) : ℚ :=
  29000 / (frameTimeDiff ts : ℚ)

/-- Combined state of RaceTimerApp and CameraView, plus the model clock
(now, in milliseconds of performance.now()), the running startSequence
instances, and the append-only command log. -/
structure AppState where
  isSequenceActive : Bool := false
  recordingState : RecordingState := RecordingState.idle
  timingMarkers : TimingMarkers := {}
  frameTimestamps : List ℤ := []
  recordingStartTime : Option ℤ := none
  actualFps : ℚ := 0
  scripts : List RunningSeq := []
  now : ℤ := 0
  log : List Cmd := []
deriving DecidableEq, Repr

/-- Initial mounted state of the app. -/
def initState : AppState := {}

/-- canStart from ControlPanel (src/unnamed/part_004 line 28): the Start
Sequence button is enabled only in this state. -/
def canStart (s : AppState) : Bool :=
  s.recordingState == RecordingState.idle && !s.isSequenceActive

/-- canStop from ControlPanel (src/unnamed/part_004 line 29). -/
def canStop (s : AppState) : Bool :=
  s.recordingState == RecordingState.recording

/-- CameraView useEffect on isRecording becoming true (part_004 lines
204-210) followed by startRecording (lines 217-232): stamp
recordingStartTime, clear the frame buffer and fps, and issue the
camera.startRecording command. -/
def cameraEffectStart (s : AppState) : AppState :=
  { s with recordingStartTime := some s.now
           frameTimestamps := []
           actualFps := 0
           log := s.log ++ [Cmd.beginRecording] }

/-- CameraView useEffect on isRecording becoming false (part_004 lines
211-214) followed by stopRecording (lines 234-243): when a recording
start time exists, issue camera.stopRecording and clear it. -/
def cameraEffectStop (s : AppState) : AppState :=
  match s.recordingStartTime with
  | some _ => { s with log := s.log ++ [Cmd.stopRecording], recordingStartTime := none }
  | none => s

/-- handleStartSequence from RaceTimerApp.tsx lines 84-97, together with
the React effects its state updates trigger: the guard, then
setIsSequenceActive(true) and setRecordingState(recording), then the
CameraView recording-start effect, then the StartSequenceOverlay mounts
and its useEffect launches startSequence. -/
def handleStartSequence (cfg : StartSequenceConfig) (d1 d2 : ℤ) (s : AppState) : AppState :=
  if s.isSequenceActive || s.recordingState == RecordingState.recording then s
  else
    let s1 := { s with isSequenceActive := true, recordingState := RecordingState.recording }
    let s2 := cameraEffectStart s1
    { s2 with scripts := s2.scripts ++ [{ steps := startSequence cfg d1 d2 }] }

/-- handleStopRecording from RaceTimerApp.tsx lines 99-108, plus the
CameraView recording-stop effect: guard on recording, set state to
finished, clear isSequenceActive, stamp finishTime with the clock, then
stop the camera. -/
def handleStopRecording (s : AppState) : AppState :=
  if s.recordingState == RecordingState.recording then
    let s1 := { s with recordingState := RecordingState.finished
                       isSequenceActive := false
                       timingMarkers := s.timingMarkers.setFinishTime s.now }
    cameraEffectStop s1
  else s

/-- handleSequenceComplete from RaceTimerApp.tsx lines 110-113: write
the startTime delivered by the overlay into the timing markers. -/
def handleSequenceComplete (t : ℤ) (s : AppState) : AppState :=
  { s with timingMarkers := s.timingMarkers.setStartTime t }

/-- handleSequenceCancelled from RaceTimerApp.tsx lines 115-118, plus
the CameraView recording-stop effect triggered by recordingState going
back to idle. -/
def handleSequenceCancelled (s : AppState) : AppState :=
  let s1 := { s with isSequenceActive := false, recordingState := RecordingState.idle }
  cameraEffectStop s1

/-- The frame processor from CameraView (part_004 lines 182-202), run at
the model clock: when isRecording and recordingStartTime is set, append
elapsedMs = now - recordingStartTime to frameTimestamps, and once at
least 30 timestamps exist recompute actualFps from the last 30. -/
def frameProcessor (s : AppState) : AppState :=
  if s.recordingState == RecordingState.recording then
    match s.recordingStartTime with
    | some t0 =>
      let ts := s.frameTimestamps ++ [s.now - t0]
      if 30 ≤ ts.length then
        { s with frameTimestamps := ts, actualFps := measuredFps ts }
      else
        { s with frameTimestamps := ts }
    | none => s
  else s

/-- Execute the next step of the i-th running startSequence instance.
Display steps change nothing observable; an awaited delay advances the
clock; an awaited playAudio appends a play command to the log;
captureStartVar stores the clock in the local startTime variable;
scheduleComplete arms the 500 ms onComplete timeout with that value. -/
def runSeqStep (i : ℕ) (s : AppState) : AppState :=
  match s.scripts[i]? with
  | none => s
  | some rs =>
    match rs.steps with
    | [] => s
    | st :: rest =>
      let rs1 := { rs with steps := rest }
      match st with
      | SeqStep.uiUpdate => { s with scripts := s.scripts.set i rs1 }
      | SeqStep.issueBegin => { s with scripts := s.scripts.set i rs1 }
      | SeqStep.waitMs ms => { s with now := s.now + ms, scripts := s.scripts.set i rs1 }
      | SeqStep.playCue c => { s with log := s.log ++ [Cmd.play c], scripts := s.scripts.set i rs1 }
      | SeqStep.captureStartVar =>
          { s with scripts := s.scripts.set i { rs1 with captured := some s.now } }
      | SeqStep.scheduleComplete =>
          { s with scripts := s.scripts.set i { rs1 with scheduled := rs.captured } }

/-- Firing of the scheduled onComplete(startTime) timeout of the i-th
sequence instance: invokes handleSequenceComplete with the captured
startTime. The armed payload is kept so that a duplicated delivery of
the completion signal can also be modelled as an event. -/
def deliverComplete (i : ℕ) (s : AppState) : AppState :=
  match s.scripts[i]? with
  | none => s
  | some rs =>
    match rs.scheduled with
    | some t => handleSequenceComplete t s
    | none => s

/-- Atomic events of a run: button presses (which reach their handler
only when ControlPanel has the button enabled), a camera frame arriving
d milliseconds after the previous event, one step of a running sequence
script, a (possibly duplicated) completion-timeout delivery, and plain
passage of time. -/
inductive Event
  | pressStart (cfg : StartSequenceConfig) (d1 d2 : ℤ)
  | pressStop
  | pressCancel
  | frameArrive (d : ℤ)
  | seqStep (i : ℕ)
  | timerComplete (i : ℕ)
  | tick (d : ℤ)
deriving DecidableEq, Repr

/-- One event of the single-threaded JS event loop. Button events fire
their handler only when ControlPanel renders the button enabled
(disabled is bound to the negation of canStart and canStop); the cancel
button exists only while the overlay is mounted, i.e. while
isSequenceActive. -/
def step (s : AppState) (e : Event) : AppState :=
  match e with
  | Event.pressStart cfg d1 d2 => if canStart s then handleStartSequence cfg d1 d2 s else s
  | Event.pressStop => if canStop s then handleStopRecording s else s
  | Event.pressCancel => if s.isSequenceActive then handleSequenceCancelled s else s
  | Event.frameArrive d => frameProcessor { s with now := s.now + d }
  | Event.seqStep i => runSeqStep i s
  | Event.timerComplete i => deliverComplete i s
  | Event.tick d => { s with now := s.now + d }

/-- A run of the app: fold the step function over a list of events. -/
def run (s : AppState) (es : List Event) : AppState :=
  es.foldl step s

/-- Decides whether the steps of the first list occur in the second list
in the given order (not necessarily adjacently). Used to state ordering
claims about handler traces. -/
def occursInOrder : List SeqStep → List SeqStep → Bool
  | [], _ => true
  | _ :: _, [] => false
  | p :: ps, x :: xs => if p = x then occursInOrder ps xs else occursInOrder (p :: ps) xs

/-- Whether a command log contains a beginRecording command. -/
def hasBegin : List Cmd → Bool
  | [] => false
  | Cmd.beginRecording :: _ => true
  | _ :: l => hasBegin l

/-- Number of beginRecording commands in a log. -/
def beginCount : List Cmd → ℕ
  | [] => 0
  | Cmd.beginRecording :: l => beginCount l + 1
  | _ :: l => beginCount l

/-- Number of play commands for a given cue in a log. -/
def playCount (c : Cue) : List Cmd → ℕ
  | [] => 0
  | Cmd.play c2 :: l => (if c2 = c then 1 else 0) + playCount c l
  | _ :: l => playCount c l

/-- Decides whether every audio play command in the log is preceded by a
beginRecording command (the flag records whether a begin has been seen
in the part of the log already consumed). -/
def beginBeforeAudio : Bool → List Cmd → Bool
  | _, [] => true
  | seen, Cmd.play _ :: l => seen && beginBeforeAudio seen l
  | _, Cmd.beginRecording :: l => beginBeforeAudio true l
  | seen, _ :: l => beginBeforeAudio seen l

/-- Decides whether every audio play command in the log is preceded by a
completed calibration command. This is the ordering property the spec
asserts (calibration completes before any countdown audio). -/
def calibBeforeAudio : Bool → List Cmd → Bool
  | _, [] => true
  | seen, Cmd.play _ :: l => seen && calibBeforeAudio seen l
  | _, Cmd.calibrate :: l => calibBeforeAudio true l
  | seen, _ :: l => calibBeforeAudio seen l

/-- Reachability invariant of the app: once recordingState is finished
the overlay is gone (isSequenceActive is false), and finishTime is only
ever set in the finished state. -/
def StateInv (s : AppState) : Prop :=
  (s.recordingState = RecordingState.finished → s.isSequenceActive = false)
  ∧ (s.timingMarkers.finishTime.isSome = true → s.recordingState = RecordingState.finished)

/-- Log invariant of the app: every play command is preceded by a
beginRecording command, a running script implies a begin has been
logged, and no calibration command is ever logged. -/
def LogInv (s : AppState) : Prop :=
  beginBeforeAudio false s.log = true
  ∧ (s.scripts = [] ∨ hasBegin s.log = true)
  ∧ Cmd.calibrate ∉ s.log

/-- A full nominal session with the default (= Scenario A) configuration
and injected randomized delays of 2000 ms (in position) and 1500 ms
(set): press Start, run the 20 steps of the sequence script, deliver the
completion timeout once. -/
def sessionEvents : List Event :=
  Event.pressStart defaultStartSequenceConfig 2000 1500
    :: (List.replicate 20 (Event.seqStep 0) ++ [Event.timerComplete 0])

/-- The nominal session with a duplicated delivery of the completion
signal appended. -/
def sessionEventsDup : List Event :=
  sessionEvents ++ [Event.timerComplete 0]

/-- A session driven up to (and including) the go-to-start audio cue:
press Start, then eight script steps (the 3-2-1 countdown, the phase
switch and the go-to-start play call). -/
def goToStartEvents : List Event :=
  Event.pressStart defaultStartSequenceConfig 2000 1500
    :: List.replicate 8 (Event.seqStep 0)

/-- A session cancelled during the go-to-start phase: the cancel button
is pressed right after the go-to-start cue, while the script still has
its waits and GO phase pending. -/
def cancelledPrefixEvents : List Event :=
  goToStartEvents ++ [Event.pressCancel]

/-- The cancelled session continued to the end: the orphaned script runs
its remaining twelve steps and its completion timeout fires. -/
def cancelledFullEvents : List Event :=
  cancelledPrefixEvents ++ (List.replicate 12 (Event.seqStep 0) ++ [Event.timerComplete 0])

/-- A session in which one camera frame arrives 100 ms into the
countdown, the sequence then completes, and recording is stopped. -/
def earlyFrameEvents : List Event :=
  Event.pressStart defaultStartSequenceConfig 2000 1500
    :: Event.frameArrive 100
    :: (List.replicate 20 (Event.seqStep 0) ++ [Event.timerComplete 0, Event.pressStop])

/-- A short session: start, one frame after 100 ms, stop. -/
def shortSessionEvents : List Event :=
  [Event.pressStart defaultStartSequenceConfig 2000 1500,
   Event.frameArrive 100, Event.pressStop]

/-- Thirty frame elapsed times whose last-30 window spans 58000 ms: 29
frames at time 0 and one at 58000. -/
def slowFrameList : List ℤ :=
  List.replicate 29 0 ++ [58000]

/-- Thirty frame elapsed times whose last-30 window spans exactly
29000 ms, giving a measured rate of 1 fps. -/
def okFrameList : List ℤ :=
  List.replicate 29 0 ++ [29000]

/-- Camera format record, from the react-native-vision-camera fields
read by findBestFormat (CameraContext.tsx lines 59-93): videoWidth,
videoHeight and maxFps may each be absent (undefined in JS). fps values
are modelled as integers (every value involved in the claims is one). -/
structure CameraFormat where
  videoWidth : Option ℕ
  videoHeight : Option ℕ
  maxFps : Option ℤ
deriving DecidableEq, Repr

/-- JS truthiness of a possibly-absent dimension: undefined and 0 are
falsy. -/
def truthy : Option ℕ → Bool
  | some n => n != 0
  | none => false

/-- The filter predicate of findBestFormat (CameraContext.tsx lines
64-68): format.videoWidth && format.videoHeight && format.maxFps >=
targetFps (a JS comparison against undefined is false). -/
def fmtPasses (f : CameraFormat) (targetFps : ℤ) : Bool :=
  truthy f.videoWidth && truthy f.videoHeight &&
    (match f.maxFps with
     | some m => decide (targetFps ≤ m)
     | none => false)

/-- Pixel count (a.videoWidth || 0) * (a.videoHeight || 0) used by the
sort comparator. -/
def pixelCount (f : CameraFormat) : ℕ :=
  f.videoWidth.getD 0 * f.videoHeight.getD 0

/-- The sort comparator of findBestFormat (CameraContext.tsx lines
69-80): higher resolution first, then higher maxFps. Only the fact that
sorting permutes the list matters for the claims. -/
def fmtBefore (a b : CameraFormat) : Bool :=
  if pixelCount a ≠ pixelCount b then decide (pixelCount b < pixelCount a)
  else decide (b.maxFps.getD 0 ≤ a.maxFps.getD 0)

/-- Insertion step of the sort. -/
def insertFmt (a : CameraFormat) : List CameraFormat → List CameraFormat
  | [] => [a]
  | b :: l => if fmtBefore a b then a :: b :: l else b :: insertFmt a l

/-- The sort applied by findBestFormat to the filtered format list. -/
def sortFormats : List CameraFormat → List CameraFormat
  | [] => []
  | a :: l => insertFmt a (sortFormats l)

/-- The ideal-format predicate of findBestFormat (CameraContext.tsx
lines 83-87): 1920 x 1080 with (maxFps || 0) >= 240. -/
def isIdeal1080p240 (f : CameraFormat) : Bool :=
  f.videoWidth == some 1920 && f.videoHeight == some 1080
    && decide (240 ≤ f.maxFps.getD 0)

/-- Camera device as consumed by findBestFormat: only its formats list,
which may be absent. -/
structure CameraDevice where
  formats : Option (List CameraFormat)
deriving DecidableEq, Repr

/-- findBestFormat from CameraContext.tsx lines 59-93: bail out when the
device has no formats list, filter to usable formats meeting the target
fps, sort by preference, return the ideal 1080p/240fps format when
present, else the first sorted format (undefined when the sorted list is
empty, since sortedFormats[0] is undefined in JS). -/
def findBestFormat (device : CameraDevice) (targetFps : ℤ) : Option CameraFormat :=
  match device.formats with
  | none => none
  | some fmts =>
    let sortedFormats := sortFormats (fmts.filter (fun f => fmtPasses f targetFps))
    match sortedFormats.find? isIdeal1080p240 with
    | some ideal => some ideal
    | none => sortedFormats.head?

/-- A concrete format satisfying the filter: 1920 x 1080 at 240 fps. -/
def idealFmt : CameraFormat :=
  { videoWidth := some 1920, videoHeight := some 1080, maxFps := some 240 }

/-- A concrete device exposing just the ideal format. -/
def idealDevice : CameraDevice :=
  { formats := some [idealFmt] }

/-! Helper lemmas about the timing markers, counters and logs. -/

@[simp]
lemma TimingMarkers.setStartTime_finishTime (tm : TimingMarkers) (t : ℤ) :
    (tm.setStartTime t).finishTime = tm.finishTime := by
  cases h : tm.startTime <;> simp [TimingMarkers.setStartTime, h]

lemma TimingMarkers.setStartTime_idem (tm : TimingMarkers) (t : ℤ) :
    (tm.setStartTime t).setStartTime t = tm.setStartTime t := by
  cases h : tm.startTime <;> simp [TimingMarkers.setStartTime, h]

@[simp]
lemma beginCount_append (l1 l2 : List Cmd) :
    beginCount (l1 ++ l2) = beginCount l1 + beginCount l2 := by
  induction l1 with
  | nil => simp [beginCount]
  | cons c l ih =>
    cases c with
    | beginRecording => simp [beginCount, ih]; omega
    | stopRecording => simp [beginCount, ih]
    | play cu => simp [beginCount, ih]
    | calibrate => simp [beginCount, ih]

@[simp]
lemma hasBegin_append (l1 l2 : List Cmd) :
    hasBegin (l1 ++ l2) = (hasBegin l1 || hasBegin l2) := by
  induction l1 with
  | nil => simp [hasBegin]
  | cons c l ih => cases c <;> simp [hasBegin, ih]

lemma beginBeforeAudio_append_nonplay (l : List Cmd) (seen : Bool) (c : Cmd)
    (h : ∀ cu, c ≠ Cmd.play cu) :
    beginBeforeAudio seen (l ++ [c]) = beginBeforeAudio seen l := by
  induction l generalizing seen with
  | nil =>
    cases c with
    | play cu => exact absurd rfl (h cu)
    | beginRecording => simp [beginBeforeAudio]
    | stopRecording => simp [beginBeforeAudio]
    | calibrate => simp [beginBeforeAudio]
  | cons a l ih =>
    cases a <;> simp [beginBeforeAudio, ih]

lemma beginBeforeAudio_append_play (l : List Cmd) (seen : Bool) (cu : Cue) :
    beginBeforeAudio seen (l ++ [Cmd.play cu])
      = (beginBeforeAudio seen l && (seen || hasBegin l)) := by
  induction l generalizing seen with
  | nil => cases seen <;> simp [beginBeforeAudio, hasBegin]
  | cons a l ih =>
    cases a with
    | beginRecording => simp [beginBeforeAudio, hasBegin, ih]
    | play cu2 => cases seen <;> simp [beginBeforeAudio, hasBegin, ih]
    | stopRecording => simp [beginBeforeAudio, hasBegin, ih]
    | calibrate => simp [beginBeforeAudio, hasBegin, ih]

lemma scripts_ne_nil_of_getElem? {s : AppState} {i : ℕ} {rs : RunningSeq}
    (h : s.scripts[i]? = some rs) : s.scripts ≠ [] := by
  intro hnil
  rw [hnil] at h
  simp at h

/-! Projection lemmas: which fields each operation can touch. -/

@[simp]
lemma cameraEffectStop_recordingState (s : AppState) :
    (cameraEffectStop s).recordingState = s.recordingState := by
  cases h : s.recordingStartTime <;> simp [cameraEffectStop, h]

@[simp]
lemma cameraEffectStop_isSequenceActive (s : AppState) :
    (cameraEffectStop s).isSequenceActive = s.isSequenceActive := by
  cases h : s.recordingStartTime <;> simp [cameraEffectStop, h]

@[simp]
lemma cameraEffectStop_timingMarkers (s : AppState) :
    (cameraEffectStop s).timingMarkers = s.timingMarkers := by
  cases h : s.recordingStartTime <;> simp [cameraEffectStop, h]

@[simp]
lemma cameraEffectStop_frameTimestamps (s : AppState) :
    (cameraEffectStop s).frameTimestamps = s.frameTimestamps := by
  cases h : s.recordingStartTime <;> simp [cameraEffectStop, h]

@[simp]
lemma cameraEffectStop_scripts (s : AppState) :
    (cameraEffectStop s).scripts = s.scripts := by
  cases h : s.recordingStartTime <;> simp [cameraEffectStop, h]

@[simp]
lemma cameraEffectStop_beginCount (s : AppState) :
    beginCount (cameraEffectStop s).log = beginCount s.log := by
  cases h : s.recordingStartTime <;> simp [cameraEffectStop, h, beginCount]

lemma cameraEffectStop_beginBeforeAudio (s : AppState) (seen : Bool) :
    beginBeforeAudio seen (cameraEffectStop s).log = beginBeforeAudio seen s.log := by
  cases h : s.recordingStartTime <;>
    simp [cameraEffectStop, h, beginBeforeAudio_append_nonplay]

@[simp]
lemma cameraEffectStop_hasBegin (s : AppState) :
    hasBegin (cameraEffectStop s).log = hasBegin s.log := by
  cases h : s.recordingStartTime <;> simp [cameraEffectStop, h, hasBegin]

@[simp]
lemma cameraEffectStop_calib (s : AppState) :
    Cmd.calibrate ∈ (cameraEffectStop s).log ↔ Cmd.calibrate ∈ s.log := by
  cases h : s.recordingStartTime <;> simp [cameraEffectStop, h]

@[simp]
lemma frameProcessor_recordingState (s : AppState) :
    (frameProcessor s).recordingState = s.recordingState := by
  unfold frameProcessor
  split
  · cases h : s.recordingStartTime
    · simp
    · simp only []
      split <;> simp
  · rfl

@[simp]
lemma frameProcessor_isSequenceActive (s : AppState) :
    (frameProcessor s).isSequenceActive = s.isSequenceActive := by
  unfold frameProcessor
  split
  · cases h : s.recordingStartTime
    · simp
    · simp only []
      split <;> simp
  · rfl

@[simp]
lemma frameProcessor_timingMarkers (s : AppState) :
    (frameProcessor s).timingMarkers = s.timingMarkers := by
  unfold frameProcessor
  split
  · cases h : s.recordingStartTime
    · simp
    · simp only []
      split <;> simp
  · rfl

@[simp]
lemma frameProcessor_scripts (s : AppState) :
    (frameProcessor s).scripts = s.scripts := by
  unfold frameProcessor
  split
  · cases h : s.recordingStartTime
    · simp
    · simp only []
      split <;> simp
  · rfl

@[simp]
lemma frameProcessor_log (s : AppState) :
    (frameProcessor s).log = s.log := by
  unfold frameProcessor
  split
  · cases h : s.recordingStartTime
    · simp
    · simp only []
      split <;> simp
  · rfl

@[simp]
lemma runSeqStep_recordingState (i : ℕ) (s : AppState) :
    (runSeqStep i s).recordingState = s.recordingState := by
  cases hg : s.scripts[i]? with
  | none => simp [runSeqStep, hg]
  | some rs =>
    cases hs : rs.steps with
    | nil => simp [runSeqStep, hg, hs]
    | cons st rest => cases st <;> simp [runSeqStep, hg, hs]

@[simp]
lemma runSeqStep_isSequenceActive (i : ℕ) (s : AppState) :
    (runSeqStep i s).isSequenceActive = s.isSequenceActive := by
  cases hg : s.scripts[i]? with
  | none => simp [runSeqStep, hg]
  | some rs =>
    cases hs : rs.steps with
    | nil => simp [runSeqStep, hg, hs]
    | cons st rest => cases st <;> simp [runSeqStep, hg, hs]

@[simp]
lemma runSeqStep_timingMarkers (i : ℕ) (s : AppState) :
    (runSeqStep i s).timingMarkers = s.timingMarkers := by
  cases hg : s.scripts[i]? with
  | none => simp [runSeqStep, hg]
  | some rs =>
    cases hs : rs.steps with
    | nil => simp [runSeqStep, hg, hs]
    | cons st rest => cases st <;> simp [runSeqStep, hg, hs]

@[simp]
lemma runSeqStep_frameTimestamps (i : ℕ) (s : AppState) :
    (runSeqStep i s).frameTimestamps = s.frameTimestamps := by
  cases hg : s.scripts[i]? with
  | none => simp [runSeqStep, hg]
  | some rs =>
    cases hs : rs.steps with
    | nil => simp [runSeqStep, hg, hs]
    | cons st rest => cases st <;> simp [runSeqStep, hg, hs]

@[simp]
lemma runSeqStep_recordingStartTime (i : ℕ) (s : AppState) :
    (runSeqStep i s).recordingStartTime = s.recordingStartTime := by
  cases hg : s.scripts[i]? with
  | none => simp [runSeqStep, hg]
  | some rs =>
    cases hs : rs.steps with
    | nil => simp [runSeqStep, hg, hs]
    | cons st rest => cases st <;> simp [runSeqStep, hg, hs]

lemma runSeqStep_log (i : ℕ) (s : AppState) :
    (runSeqStep i s).log = s.log ∨
      ∃ c, (runSeqStep i s).log = s.log ++ [Cmd.play c] ∧ s.scripts ≠ [] := by
  cases hg : s.scripts[i]? with
  | none => exact Or.inl (by simp [runSeqStep, hg])
  | some rs =>
    cases hs : rs.steps with
    | nil => exact Or.inl (by simp [runSeqStep, hg, hs])
    | cons st rest =>
      cases st with
      | playCue c =>
        exact Or.inr ⟨c, by simp [runSeqStep, hg, hs], scripts_ne_nil_of_getElem? hg⟩
      | uiUpdate => exact Or.inl (by simp [runSeqStep, hg, hs])
      | waitMs ms => exact Or.inl (by simp [runSeqStep, hg, hs])
      | captureStartVar => exact Or.inl (by simp [runSeqStep, hg, hs])
      | scheduleComplete => exact Or.inl (by simp [runSeqStep, hg, hs])
      | issueBegin => exact Or.inl (by simp [runSeqStep, hg, hs])

lemma runSeqStep_scripts_ne_nil (i : ℕ) (s : AppState) (h : s.scripts ≠ []) :
    (runSeqStep i s).scripts ≠ [] := by
  cases hg : s.scripts[i]? with
  | none => simpa [runSeqStep, hg] using h
  | some rs =>
    cases hs : rs.steps with
    | nil => simpa [runSeqStep, hg, hs] using h
    | cons st rest => cases st <;> simp [runSeqStep, hg, hs, List.set_eq_nil_iff, h]

@[simp]
lemma deliverComplete_recordingState (i : ℕ) (s : AppState) :
    (deliverComplete i s).recordingState = s.recordingState := by
  cases hg : s.scripts[i]? with
  | none => simp [deliverComplete, hg]
  | some rs =>
    cases hs : rs.scheduled with
    | none => simp [deliverComplete, hg, hs]
    | some t => simp [deliverComplete, hg, hs, handleSequenceComplete]

@[simp]
lemma deliverComplete_isSequenceActive (i : ℕ) (s : AppState) :
    (deliverComplete i s).isSequenceActive = s.isSequenceActive := by
  cases hg : s.scripts[i]? with
  | none => simp [deliverComplete, hg]
  | some rs =>
    cases hs : rs.scheduled with
    | none => simp [deliverComplete, hg, hs]
    | some t => simp [deliverComplete, hg, hs, handleSequenceComplete]

@[simp]
lemma deliverComplete_frameTimestamps (i : ℕ) (s : AppState) :
    (deliverComplete i s).frameTimestamps = s.frameTimestamps := by
  cases hg : s.scripts[i]? with
  | none => simp [deliverComplete, hg]
  | some rs =>
    cases hs : rs.scheduled with
    | none => simp [deliverComplete, hg, hs]
    | some t => simp [deliverComplete, hg, hs, handleSequenceComplete]

@[simp]
lemma deliverComplete_log (i : ℕ) (s : AppState) :
    (deliverComplete i s).log = s.log := by
  cases hg : s.scripts[i]? with
  | none => simp [deliverComplete, hg]
  | some rs =>
    cases hs : rs.scheduled with
    | none => simp [deliverComplete, hg, hs]
    | some t => simp [deliverComplete, hg, hs, handleSequenceComplete]

@[simp]
lemma deliverComplete_scripts (i : ℕ) (s : AppState) :
    (deliverComplete i s).scripts = s.scripts := by
  cases hg : s.scripts[i]? with
  | none => simp [deliverComplete, hg]
  | some rs =>
    cases hs : rs.scheduled with
    | none => simp [deliverComplete, hg, hs]
    | some t => simp [deliverComplete, hg, hs, handleSequenceComplete]

@[simp]
lemma deliverComplete_finishTime (i : ℕ) (s : AppState) :
    (deliverComplete i s).timingMarkers.finishTime = s.timingMarkers.finishTime := by
  cases hg : s.scripts[i]? with
  | none => simp [deliverComplete, hg]
  | some rs =>
    cases hs : rs.scheduled with
    | none => simp [deliverComplete, hg, hs]
    | some t => simp [deliverComplete, hg, hs, handleSequenceComplete]

/-! Guard characterizations and run lemmas. -/

lemma canStart_iff (s : AppState) :
    canStart s = true ↔
      s.recordingState = RecordingState.idle ∧ s.isSequenceActive = false := by
  simp [canStart, Bool.and_eq_true, beq_iff_eq, Bool.not_eq_true']

lemma canStop_iff (s : AppState) :
    canStop s = true ↔ s.recordingState = RecordingState.recording := by
  simp [canStop, beq_iff_eq]

lemma handleStartSequence_eq (cfg : StartSequenceConfig) (d1 d2 : ℤ) (s : AppState)
    (h1 : s.isSequenceActive = false) (h2 : s.recordingState = RecordingState.idle) :
    handleStartSequence cfg d1 d2 s =
      { s with isSequenceActive := true
               recordingState := RecordingState.recording
               recordingStartTime := some s.now
               frameTimestamps := []
               actualFps := 0
               log := s.log ++ [Cmd.beginRecording]
               scripts := s.scripts ++ [{ steps := startSequence cfg d1 d2 }] } := by
  simp [handleStartSequence, cameraEffectStart, h1, h2]

lemma run_cons (s : AppState) (e : Event) (es : List Event) :
    run s (e :: es) = run (step s e) es := rfl

lemma run_append (s : AppState) (a b : List Event) :
    run s (a ++ b) = run (run s a) b := by
  simp [run, List.foldl_append]

/-! Preservation of the reachability invariant. -/

lemma stateInv_init : StateInv initState := by
  constructor <;> intro h <;> simp [initState] at h

lemma stateInv_step (s : AppState) (e : Event) (h : StateInv s) : StateInv (step s e) := by
  obtain ⟨h1, h2⟩ := h
  cases e with
  | pressStart cfg d1 d2 =>
    simp only [step]
    by_cases hc : canStart s = true
    · rw [if_pos hc]
      have hidle : s.recordingState = RecordingState.idle := ((canStart_iff s).mp hc).1
      have hact : s.isSequenceActive = false := ((canStart_iff s).mp hc).2
      rw [handleStartSequence_eq cfg d1 d2 s hact hidle]
      constructor
      · intro hf; exact absurd hf (by simp)
      · intro hf
        have hfin := h2 (by simpa using hf)
        rw [hidle] at hfin
        exact absurd hfin (by simp)
    · rw [if_neg hc]; exact ⟨h1, h2⟩
  | pressStop =>
    simp only [step]
    by_cases hc : canStop s = true
    · rw [if_pos hc]
      unfold handleStopRecording
      rw [if_pos (show (s.recordingState == RecordingState.recording) = true from hc)]
      constructor
      · intro _; simp
      · intro _; simp
    · rw [if_neg hc]; exact ⟨h1, h2⟩
  | pressCancel =>
    simp only [step]
    by_cases hact : s.isSequenceActive = true
    · rw [if_pos hact]
      unfold handleSequenceCancelled
      constructor
      · intro hf; simp at hf
      · intro hf
        have hfin := h2 (by simpa using hf)
        have := h1 hfin
        rw [hact] at this
        exact absurd this (by simp)
    · rw [if_neg hact]; exact ⟨h1, h2⟩
  | frameArrive d =>
    constructor
    · intro hf
      have hs : s.recordingState = RecordingState.finished := by simpa [step] using hf
      simpa [step] using h1 hs
    · intro hf
      have hs : s.timingMarkers.finishTime.isSome = true := by simpa [step] using hf
      simpa [step] using h2 hs
  | seqStep i =>
    constructor
    · intro hf
      have hs : s.recordingState = RecordingState.finished := by simpa [step] using hf
      simpa [step] using h1 hs
    · intro hf
      have hs : s.timingMarkers.finishTime.isSome = true := by simpa [step] using hf
      simpa [step] using h2 hs
  | timerComplete i =>
    constructor
    · intro hf
      have hs : s.recordingState = RecordingState.finished := by simpa [step] using hf
      simpa [step] using h1 hs
    · intro hf
      have hs : s.timingMarkers.finishTime.isSome = true := by simpa [step] using hf
      simpa [step] using h2 hs
  | tick d =>
    constructor
    · intro hf
      have hs : s.recordingState = RecordingState.finished := by simpa [step] using hf
      simpa [step] using h1 hs
    · intro hf
      have hs : s.timingMarkers.finishTime.isSome = true := by simpa [step] using hf
      simpa [step] using h2 hs

lemma stateInv_run (es : List Event) : ∀ s, StateInv s → StateInv (run s es) := by
  induction es with
  | nil => intro s h; exact h
  | cons e es ih => intro s h; exact ih _ (stateInv_step s e h)

/-! Once finished, the session state is frozen. -/

lemma finished_step (s : AppState) (e : Event) (h : StateInv s)
    (hf : s.recordingState = RecordingState.finished) :
    (step s e).recordingState = RecordingState.finished
    ∧ (step s e).frameTimestamps = s.frameTimestamps
    ∧ (step s e).timingMarkers.finishTime = s.timingMarkers.finishTime
    ∧ beginCount (step s e).log = beginCount s.log := by
  obtain ⟨h1, h2⟩ := h
  cases e with
  | pressStart cfg d1 d2 =>
    have hc : canStart s = false := by simp [canStart, hf]
    simp [step, hc, hf]
  | pressStop =>
    have hc : canStop s = false := by simp [canStop, hf]
    simp [step, hc, hf]
  | pressCancel =>
    have hact : s.isSequenceActive = false := h1 hf
    simp [step, hact, hf]
  | frameArrive d =>
    have heq : step s (Event.frameArrive d) = { s with now := s.now + d } := by
      simp [step, frameProcessor, hf]
    rw [heq]
    exact ⟨hf, rfl, rfl, rfl⟩
  | seqStep i =>
    refine ⟨by simp [step, hf], by simp [step], by simp [step], ?_⟩
    rcases runSeqStep_log i s with hl | ⟨c, hl, _⟩
    · simp only [step]; rw [hl]
    · simp only [step]; rw [hl]; simp [beginCount]
  | timerComplete i =>
    refine ⟨by simp [step, hf], by simp [step], by simp [step], by simp [step]⟩
  | tick d =>
    refine ⟨by simp [step, hf], by simp [step], by simp [step], by simp [step]⟩

lemma finished_run (es : List Event) : ∀ s : AppState, StateInv s →
    s.recordingState = RecordingState.finished →
    ((run s es).recordingState = RecordingState.finished
     ∧ (run s es).frameTimestamps = s.frameTimestamps
     ∧ (run s es).timingMarkers.finishTime = s.timingMarkers.finishTime
     ∧ beginCount (run s es).log = beginCount s.log) := by
  induction es with
  | nil => intro s _ hf; exact ⟨hf, rfl, rfl, rfl⟩
  | cons e es ih =>
    intro s h hf
    obtain ⟨f1, f2, f3, f4⟩ := finished_step s e h hf
    obtain ⟨g1, g2, g3, g4⟩ := ih (step s e) (stateInv_step s e h) f1
    exact ⟨g1, by rw [run_cons, g2, f2], by rw [run_cons, g3, f3], by rw [run_cons, g4, f4]⟩

/-! Preservation of the log invariant. -/

lemma logInv_init : LogInv initState := by
  refine ⟨rfl, Or.inl rfl, ?_⟩
  simp [initState]

lemma logInv_step (s : AppState) (e : Event) (h : LogInv s) : LogInv (step s e) := by
  obtain ⟨hb, hsc, hcal⟩ := h
  cases e with
  | pressStart cfg d1 d2 =>
    simp only [step]
    by_cases hc : canStart s = true
    · rw [if_pos hc]
      have hidle : s.recordingState = RecordingState.idle := ((canStart_iff s).mp hc).1
      have hact : s.isSequenceActive = false := ((canStart_iff s).mp hc).2
      rw [handleStartSequence_eq cfg d1 d2 s hact hidle]
      refine ⟨?_, ?_, ?_⟩
      · rw [beginBeforeAudio_append_nonplay s.log false Cmd.beginRecording (by intro cu; simp)]
        exact hb
      · right; simp [hasBegin]
      · simpa using hcal
    · rw [if_neg hc]; exact ⟨hb, hsc, hcal⟩
  | pressStop =>
    simp only [step]
    by_cases hc : canStop s = true
    · rw [if_pos hc]
      unfold handleStopRecording
      rw [if_pos (show (s.recordingState == RecordingState.recording) = true from hc)]
      refine ⟨?_, ?_, ?_⟩
      · rw [cameraEffectStop_beginBeforeAudio]; exact hb
      · rcases hsc with hempty | hbeg
        · left; simpa using hempty
        · right; simpa using hbeg
      · simpa using hcal
    · rw [if_neg hc]; exact ⟨hb, hsc, hcal⟩
  | pressCancel =>
    simp only [step]
    by_cases hact : s.isSequenceActive = true
    · rw [if_pos hact]
      unfold handleSequenceCancelled
      refine ⟨?_, ?_, ?_⟩
      · rw [cameraEffectStop_beginBeforeAudio]; exact hb
      · rcases hsc with hempty | hbeg
        · left; simpa using hempty
        · right; simpa using hbeg
      · simpa using hcal
    · rw [if_neg hact]; exact ⟨hb, hsc, hcal⟩
  | frameArrive d =>
    refine ⟨?_, ?_, ?_⟩
    · simpa [step] using hb
    · rcases hsc with hempty | hbeg
      · left; simpa [step] using hempty
      · right; simpa [step] using hbeg
    · simpa [step] using hcal
  | seqStep i =>
    refine ⟨?_, ?_, ?_⟩
    · rcases runSeqStep_log i s with hl | ⟨c, hl, hne⟩
      · simp only [step]; rw [hl]; exact hb
      · have hbeg : hasBegin s.log = true := by
          rcases hsc with hempty | hbeg
          · exact absurd hempty hne
          · exact hbeg
        simp only [step]
        rw [hl, beginBeforeAudio_append_play]
        simp [hb, hbeg]
    · rcases hsc with hempty | hbeg
      · left
        have : runSeqStep i s = s := by
          simp [runSeqStep, hempty]
        simp [step, this, hempty]
      · right
        rcases runSeqStep_log i s with hl | ⟨c, hl, _⟩
        · simp only [step]; rw [hl]; exact hbeg
        · simp only [step]; rw [hl]; simp [hbeg]
    · rcases runSeqStep_log i s with hl | ⟨c, hl, _⟩
      · simp only [step]; rw [hl]; exact hcal
      · simp only [step]; rw [hl]; simpa using hcal
  | timerComplete i =>
    refine ⟨?_, ?_, ?_⟩
    · simpa [step] using hb
    · rcases hsc with hempty | hbeg
      · left; simpa [step] using hempty
      · right; simpa [step] using hbeg
    · simpa [step] using hcal
  | tick d =>
    exact ⟨hb, hsc, hcal⟩

lemma logInv_run (es : List Event) : ∀ s, LogInv s → LogInv (run s es) := by
  induction es with
  | nil => intro s h; exact h
  | cons e es ih => intro s h; exact ih _ (logInv_step s e h)

/-! Lemmas about the format sort of findBestFormat. -/

lemma mem_insertFmt {x a : CameraFormat} {l : List CameraFormat} :
    x ∈ insertFmt a l ↔ x = a ∨ x ∈ l := by
  induction l with
  | nil => simp [insertFmt]
  | cons b l ih =>
    unfold insertFmt
    split
    · simp [or_comm, or_left_comm]
    · simp [ih]
      tauto

lemma mem_sortFormats {x : CameraFormat} {l : List CameraFormat} :
    x ∈ sortFormats l ↔ x ∈ l := by
  induction l with
  | nil => simp [sortFormats]
  | cons a l ih => simp [sortFormats, mem_insertFmt, ih]

lemma insertFmt_ne_nil (a : CameraFormat) (l : List CameraFormat) :
    insertFmt a l ≠ [] := by
  cases l with
  | nil => simp [insertFmt]
  | cons b l =>
    unfold insertFmt
    split <;> simp

lemma sortFormats_eq_nil_iff {l : List CameraFormat} :
    sortFormats l = [] ↔ l = [] := by
  cases l with
  | nil => simp [sortFormats]
  | cons a l => simp [sortFormats, insertFmt_ne_nil]

/-! Claim theorems. -/

/-- Claim C1, counterexample. The claim says the start handler issues
(1) the recording-begin command, (2) the beep playback command, and
(3) the clock read feeding startTimestamp, in that order. In the
embedded GO-phase handler of startSequence (StartSequenceOverlay.tsx
lines 75-91) no recording-begin command occurs at all (recording was
begun when the sequence was initiated), so for the default configuration
that ordered triple does not occur in the handler trace. -/
theorem C1_counterexample :
    (startPhaseActions defaultStartSequenceConfig).contains SeqStep.issueBegin = false
    ∧ occursInOrder
        [SeqStep.issueBegin, SeqStep.playCue Cue.startBeep, SeqStep.captureStartVar]
        (startPhaseActions defaultStartSequenceConfig) = false := by
  exact ⟨by decide, by decide⟩

/-- Claim C1, amended. For every configuration with audio enabled, the
GO-phase handler trace is exactly: a display update, the clock read into
the local startTime, the beep playback command, a display update, and
the scheduling of the deferred completion callback (which later writes
startTimestamp). In particular the clock read precedes the beep command
and no recording-begin command occurs anywhere in the sequence script:
recording is begun at sequence initiation instead. -/
theorem C1_theorem : ∀ cfg : StartSequenceConfig, cfg.audioEnabled = true →
    (startPhaseActions cfg =
        [SeqStep.uiUpdate, SeqStep.captureStartVar, SeqStep.playCue Cue.startBeep,
         SeqStep.uiUpdate, SeqStep.scheduleComplete]
     ∧ ∀ d1 d2 : ℤ, SeqStep.issueBegin ∉ startSequence cfg d1 d2) := by
  intro cfg h
  constructor
  · simp [startPhaseActions, h]
  · intro d1 d2
    simp [startSequence, startPhaseActions, h]

/-- Claim C1, witness: the amended statement at the default
configuration. -/
theorem C1_witness :
    startPhaseActions defaultStartSequenceConfig =
        [SeqStep.uiUpdate, SeqStep.captureStartVar, SeqStep.playCue Cue.startBeep,
         SeqStep.uiUpdate, SeqStep.scheduleComplete] :=
  (C1_theorem defaultStartSequenceConfig rfl).1

/-- Claim C2, counterexample. The claim says the frame-rate calibration
measurement and the sink pre-initialization both complete before any
countdown audio cue plays. Driving a session to its first audio cue
yields a command log containing a play command but no calibration
command at all (the source has no calibration step), so no calibration
precedes the first cue. -/
theorem C2_counterexample :
    (run initState goToStartEvents).log = [Cmd.beginRecording, Cmd.play Cue.goToStartCue]
    ∧ calibBeforeAudio false (run initState goToStartEvents).log = false := by
  exact ⟨by decide, by decide⟩

/-- Claim C2, amended. In every run, every audio play command in the
command log is preceded by a recording-begin command (the begin command
is issued by the CameraView effect when the sequence is initiated,
before the overlay script plays any cue), and no calibration command is
ever issued: the code performs no frame-rate calibration before the
countdown, and nothing waits for the begin call to complete. -/
theorem C2_theorem : ∀ es : List Event,
    beginBeforeAudio false (run initState es).log = true
    ∧ Cmd.calibrate ∉ (run initState es).log := by
  intro es
  have h := logInv_run es initState logInv_init
  exact ⟨h.1, h.2.2⟩

/-- Claim C2, witness: the amended theorem applied to the session driven
to its first audio cue. -/
theorem C2_witness :
    beginBeforeAudio false (run initState goToStartEvents).log = true :=
  (C2_theorem goToStartEvents).1

/-- Claim C3, counterexample. The claim says every element of
frameTimestamps lies in [startTimestamp, finishTimestamp] and no frame
is recorded before the start event. In a session where one camera frame
arrives 100 ms into the countdown, the final state has
startTimestamp = finishTimestamp = 11600 while frameTimestamps = [100]:
the frame was recorded 11500 ms before the start event fired and its
stored value (elapsed milliseconds since recording began, not an
absolute clock value) lies far below startTimestamp. -/
theorem C3_counterexample :
    (run initState earlyFrameEvents).timingMarkers.startTime = some 11600
    ∧ (run initState earlyFrameEvents).timingMarkers.finishTime = some 11600
    ∧ (run initState earlyFrameEvents).frameTimestamps = [100]
    ∧ (100:ℤ) < 11600 := by
  exact ⟨by decide, by decide, by decide, by decide⟩

/-- Claim C3, amended. Frames are appended only while recordingState is
recording, which begins at sequence initiation, so frames recorded
during the countdown legitimately predate startTimestamp; what does
hold is the upper half of the claim: once finishTimestamp is set, no
later event ever changes frameTimestamps (or finishTimestamp itself)
again. -/
theorem C3_theorem : ∀ events extra : List Event,
    (run initState events).timingMarkers.finishTime.isSome = true →
    ((run initState (events ++ extra)).frameTimestamps
        = (run initState events).frameTimestamps
     ∧ (run initState (events ++ extra)).timingMarkers.finishTime
        = (run initState events).timingMarkers.finishTime) := by
  intro events extra h
  have hinv := stateInv_run events initState stateInv_init
  have hfin : (run initState events).recordingState = RecordingState.finished := hinv.2 h
  have hfr := finished_run extra (run initState events) hinv hfin
  rw [run_append]
  exact ⟨hfr.2.1, hfr.2.2.1⟩

/-- Claim C3, witness: a concrete finished session whose frame list and
finish timestamp are untouched by further frame arrivals and script
steps. -/
theorem C3_witness :
    (run initState (shortSessionEvents ++ [Event.frameArrive 50, Event.seqStep 0])).frameTimestamps
      = (run initState shortSessionEvents).frameTimestamps
    ∧ (run initState (shortSessionEvents ++ [Event.frameArrive 50, Event.seqStep 0])).timingMarkers.finishTime
      = (run initState shortSessionEvents).timingMarkers.finishTime :=
  C3_theorem shortSessionEvents [Event.frameArrive 50, Event.seqStep 0] (by decide)

/-- Claim C5: the code violates the claim. Cancelling during the
go-to-start phase puts the app back in idle with no startTimestamp, but
nothing aborts the still-running startSequence async function: its
remaining steps keep executing after the cancel and its completion
callback still invokes handleSequenceComplete, which writes
startTimestamp (here 11500) in the cancelled session. -/
theorem C5_theorem :
    (run initState cancelledPrefixEvents).recordingState = RecordingState.idle
    ∧ (run initState cancelledPrefixEvents).isSequenceActive = false
    ∧ (run initState cancelledPrefixEvents).timingMarkers.startTime = none
    ∧ (run initState cancelledFullEvents).timingMarkers.startTime = some 11500 := by
  exact ⟨by decide, by decide, by decide, by decide⟩

/-- Claim C4. The Start transition is idempotent per session: a start
press while the sequence is active or recording is already underway is
a no-op; a duplicated delivery of the completion signal is a no-op on
the whole state (in particular startTimestamp is unchanged between the
first delivery and any duplicate); and in the nominal session run with
a duplicated completion signal, exactly one recording-begin command and
exactly one start-beep play command are issued. -/
theorem C4_theorem :
    (∀ (s : AppState) (cfg : StartSequenceConfig) (d1 d2 : ℤ),
        s.isSequenceActive = true ∨ s.recordingState = RecordingState.recording →
        step s (Event.pressStart cfg d1 d2) = s)
    ∧ (∀ (s : AppState) (i : ℕ),
        step (step s (Event.timerComplete i)) (Event.timerComplete i)
          = step s (Event.timerComplete i))
    ∧ beginCount (run initState sessionEventsDup).log = 1
    ∧ playCount Cue.startBeep (run initState sessionEventsDup).log = 1
    ∧ (run initState sessionEventsDup).timingMarkers.startTime
        = (run initState sessionEvents).timingMarkers.startTime := by
  refine ⟨?_, ?_, by decide, by decide, by decide⟩
  · intro s cfg d1 d2 h
    have hc : canStart s = false := by
      rcases h with h | h
      · simp [canStart, h]
      · simp [canStart, h]
    simp [step, hc]
  · intro s i
    cases hg : s.scripts[i]? with
    | none =>
      have h1 : step s (Event.timerComplete i) = s := by
        simp [step, deliverComplete, hg]
      rw [h1, h1]
    | some rs =>
      cases hs : rs.scheduled with
      | none =>
        have h1 : step s (Event.timerComplete i) = s := by
          simp [step, deliverComplete, hg, hs]
        rw [h1, h1]
      | some t =>
        have h1 : step s (Event.timerComplete i) = handleSequenceComplete t s := by
          simp [step, deliverComplete, hg, hs]
        have hg2 : (handleSequenceComplete t s).scripts[i]? = some rs := by
          simp [handleSequenceComplete, hg]
        have h2 : step (handleSequenceComplete t s) (Event.timerComplete i)
            = handleSequenceComplete t (handleSequenceComplete t s) := by
          simp [step, deliverComplete, hg2, hs]
        rw [h1, h2]
        simp [handleSequenceComplete, TimingMarkers.setStartTime_idem]

/-- Claim C4, witness: the reentrancy guard at a concrete active state
and the duplicate-delivery idempotence at the initial state. -/
theorem C4_witness :
    step { initState with isSequenceActive := true }
        (Event.pressStart defaultStartSequenceConfig 2000 1500)
      = { initState with isSequenceActive := true }
    ∧ step (step initState (Event.timerComplete 0)) (Event.timerComplete 0)
        = step initState (Event.timerComplete 0) :=
  ⟨C4_theorem.1 { initState with isSequenceActive := true }
      defaultStartSequenceConfig 2000 1500 (Or.inl rfl),
   C4_theorem.2.1 initState 0⟩

/-- Claim C6, counterexample. The claim says every measured frame rate
the engine exposes lies in the clamp band [1, 240]. The frame processor
computes measuredFps = 29000 / timeDiff with no clamping: thirty frames
whose last-30 window spans 58000 ms produce a measured rate of 1/2 fps,
outside the band. -/
theorem C6_counterexample :
    measuredFps slowFrameList = 1/2
    ∧ measuredFps slowFrameList < 1 := by
  have h : frameTimeDiff slowFrameList = 58000 := by decide
  constructor
  · rw [measuredFps, h]; norm_num
  · rw [measuredFps, h]; norm_num

/-- Claim C6, amended. The code applies no clamp: for every list of
frame times whose sampled 29-interval span is positive, the exposed
measured rate 29000 / span lies in [1, 240] exactly when the span lies
in [29000/240, 29000] milliseconds; spans outside that window yield
rates outside the band. -/
theorem C6_theorem : ∀ ts : List ℤ, 0 < frameTimeDiff ts →
    ((1 ≤ measuredFps ts ∧ measuredFps ts ≤ 240) ↔
      (29000/240 ≤ (frameTimeDiff ts : ℚ) ∧ (frameTimeDiff ts : ℚ) ≤ 29000)) := by
  intro ts h
  have hd : (0:ℚ) < (frameTimeDiff ts : ℚ) := by exact_mod_cast h
  rw [measuredFps, one_le_div hd, div_le_iff₀ hd]
  constructor
  · rintro ⟨ha, hb⟩
    exact ⟨by linarith, ha⟩
  · rintro ⟨ha, hb⟩
    exact ⟨hb, by linarith⟩

/-- Claim C6, witness: the amended characterization at a concrete frame
list spanning exactly 29000 ms. -/
theorem C6_witness :
    (1 ≤ measuredFps okFrameList ∧ measuredFps okFrameList ≤ 240) ↔
      (29000/240 ≤ (frameTimeDiff okFrameList : ℚ)
        ∧ (frameTimeDiff okFrameList : ℚ) ≤ 29000) :=
  C6_theorem okFrameList (by decide)

/-- Claim C7, counterexample. The claim says frameTimestamps is empty
whenever the state is not Recording. After a session records one frame
and is stopped, the state is finished and frameTimestamps still holds
that frame (it is retained for the recording-finished handler). -/
theorem C7_counterexample :
    (run initState shortSessionEvents).recordingState = RecordingState.finished
    ∧ (run initState shortSessionEvents).frameTimestamps.length = 1 := by
  exact ⟨by decide, by decide⟩

/-- Claim C7, amended. frameTimestamps starts empty and never grows
while the state is not recording (a frame arrival outside the recording
state appends nothing); the buffer is however retained, not cleared, on
leaving the recording state, and is reset when a recording starts. -/
theorem C7_theorem :
    initState.frameTimestamps = []
    ∧ ∀ (s : AppState) (d : ℤ), s.recordingState ≠ RecordingState.recording →
        (step s (Event.frameArrive d)).frameTimestamps = s.frameTimestamps := by
  refine ⟨rfl, ?_⟩
  intro s d h
  simp [step, frameProcessor, h]

/-- Claim C7, witness: a frame arriving in the initial idle state leaves
the frame list unchanged. -/
theorem C7_witness :
    (step initState (Event.frameArrive 5)).frameTimestamps = initState.frameTimestamps :=
  C7_theorem.2 initState 5 (by decide)

/-- Claim C8, counterexample. With the Scenario A configuration and
injected random draws giving 2000 ms and 1500 ms, the total pre-start
wait of the sequence is 11500 ms, not approximately 8500 ms: the initial
fixed 3-2-1 countdown adds 3000 ms that the claim omits, far beyond any
scheduling tolerance. -/
theorem C8_counterexample :
    totalWaitMs (startSequence defaultStartSequenceConfig 2000 1500) = 11500
    ∧ randomDelay 1 3 (1/2) = 2000
    ∧ randomDelay 1 3 (1/4) = 1500
    ∧ totalWaitMs (startSequence defaultStartSequenceConfig 2000 1500) - 8500 = 3000 := by
  refine ⟨by decide, by norm_num [randomDelay], by norm_num [randomDelay], by decide⟩

/-- Claim C8, amended. With config goToStart 5 s, inPosition [1,3] s,
set [1,3] s, audio enabled, and injected draws 1/2 and 1/4 (so the
randomDelay calls return 2000 ms and 1500 ms), the total pre-start wait
is 3 + 5 + 2 + 1.5 = 11.5 seconds, and the session run issues exactly
one recording-begin command and one start-beep play command. -/
theorem C8_theorem :
    totalWaitMs (startSequence defaultStartSequenceConfig 2000 1500) = 11500
    ∧ randomDelay 1 3 (1/2) = 2000
    ∧ randomDelay 1 3 (1/4) = 1500
    ∧ beginCount (run initState sessionEvents).log = 1
    ∧ playCount Cue.startBeep (run initState sessionEvents).log = 1 := by
  refine ⟨by decide, by norm_num [randomDelay], by norm_num [randomDelay], by decide, by decide⟩

/-- Claim C9. Once recordingState reaches finished it stays finished
under every further event, the start control stays disabled (canStart is
false), and no further recording-begin command is ever issued: no second
session can start in the same app run. -/
theorem C9_theorem : ∀ events extra : List Event,
    (run initState events).recordingState = RecordingState.finished →
    ((run initState (events ++ extra)).recordingState = RecordingState.finished
     ∧ canStart (run initState (events ++ extra)) = false
     ∧ beginCount (run initState (events ++ extra)).log
        = beginCount (run initState events).log) := by
  intro events extra h
  have hinv := stateInv_run events initState stateInv_init
  have hfr := finished_run extra (run initState events) hinv h
  rw [run_append]
  refine ⟨hfr.1, ?_, hfr.2.2.2⟩
  simp [canStart, hfr.1]

/-- Claim C9, witness: after a finished session, a further start press
leaves the state finished, the start control disabled, and the begin
count unchanged. -/
theorem C9_witness :
    (run initState (shortSessionEvents
        ++ [Event.pressStart defaultStartSequenceConfig 2000 1500])).recordingState
      = RecordingState.finished
    ∧ canStart (run initState (shortSessionEvents
        ++ [Event.pressStart defaultStartSequenceConfig 2000 1500])) = false
    ∧ beginCount (run initState (shortSessionEvents
        ++ [Event.pressStart defaultStartSequenceConfig 2000 1500])).log
      = beginCount (run initState shortSessionEvents).log :=
  C9_theorem shortSessionEvents
    [Event.pressStart defaultStartSequenceConfig 2000 1500] (by decide)

/-- Claim C10. findBestFormat returns a format only if it has truthy
(nonzero, present) videoWidth and videoHeight and a maxFps at least the
requested target; and it returns undefined exactly when the device has
no formats list or no format satisfies those conditions (an absent list
makes the universally quantified right side vacuously true). -/
theorem C10_theorem :
    (∀ (d : CameraDevice) (t : ℤ) (f : CameraFormat),
        findBestFormat d t = some f → fmtPasses f t = true)
    ∧ (∀ (d : CameraDevice) (t : ℤ),
        findBestFormat d t = none ↔ ∀ f ∈ d.formats.getD [], fmtPasses f t = false) := by
  constructor
  · intro d t f h
    cases hf : d.formats with
    | none => rw [findBestFormat, hf] at h; cases h
    | some fmts =>
      rw [findBestFormat, hf] at h
      have hmem : f ∈ sortFormats (fmts.filter (fun g => fmtPasses g t)) := by
        cases hfind : (sortFormats (fmts.filter (fun g => fmtPasses g t))).find?
            isIdeal1080p240 with
        | some ideal =>
          simp only [hfind] at h
          injection h with h2
          rw [← h2]
          exact List.mem_of_find?_eq_some hfind
        | none =>
          simp only [hfind] at h
          cases hS : sortFormats (fmts.filter (fun g => fmtPasses g t)) with
          | nil => rw [hS] at h; cases h
          | cons a l =>
            rw [hS] at h
            injection h with h2
            rw [← h2]
            exact List.mem_cons_self a l
      have hmemf : f ∈ fmts.filter (fun g => fmtPasses g t) := mem_sortFormats.mp hmem
      exact (List.mem_filter.mp hmemf).2
  · intro d t
    cases hf : d.formats with
    | none => simp [findBestFormat, hf]
    | some fmts =>
      simp only [findBestFormat, hf, Option.getD_some]
      constructor
      · intro h f hmem
        cases hq : fmtPasses f t with
        | false => rfl
        | true =>
          exfalso
          have hmemf : f ∈ fmts.filter (fun g => fmtPasses g t) :=
            List.mem_filter.mpr ⟨hmem, hq⟩
          have hne : sortFormats (fmts.filter (fun g => fmtPasses g t)) ≠ [] := by
            intro hnil
            rw [sortFormats_eq_nil_iff] at hnil
            rw [hnil] at hmemf
            cases hmemf
          cases hfind : (sortFormats (fmts.filter (fun g => fmtPasses g t))).find?
              isIdeal1080p240 with
          | some ideal => simp only [hfind] at h; cases h
          | none =>
            simp only [hfind] at h
            cases hS : sortFormats (fmts.filter (fun g => fmtPasses g t)) with
            | nil => exact hne hS
            | cons a l => rw [hS] at h; cases h
      · intro hall
        have hfil : fmts.filter (fun g => fmtPasses g t) = [] := by
          rw [List.filter_eq_nil_iff]
          intro f hmem
          simp [hall f hmem]
        rw [hfil]
        simp [sortFormats]

/-- Claim C10, witness: a device whose only format is 1920 x 1080 at
240 fps; findBestFormat returns it and it satisfies the filter. -/
theorem C10_witness : fmtPasses idealFmt 240 = true :=
  C10_theorem.1 idealDevice 240 idealFmt (by decide)
